import Mathlib

/-!
Shallow embedding of `src/python/examples/advanced_data_processor.py`
(the CSV-to-database batch pipeline) and proofs of the specification
claims about it.

Modelling conventions:
* A Python dict row is an association list `Record` from field names to
  `Value`s (string / number / boolean); insertion order is preserved,
  as for Python dicts.
* Python floats are idealised as rationals (`ℚ`); `pyFloat` models
  `float(x)` on the value kinds a CSV row can carry, and `parseDecimal`
  models the decimal subset of `float(str)` that the claims exercise
  (optional sign, digits, optional fraction; no exponents or inf/nan).
* Raising code is modelled with `Except String`; `try/except` blocks
  become `match` on the `Except` value.
* Exceptions whose cause lies outside the translated code (the database
  connection in `store_batch`, arbitrary faults inside a record's
  `try` block, a fault surfacing from `future.result()`) are injected
  through explicit oracles (`storeExn`, `recExn`, `workerExn`); the
  oracle value `none` means the corresponding source operation did not
  raise.
* Thread-pool completion order in `process_file_parallel` is modelled
  by handing the aggregation loop an explicit completion-ordered list
  `completed` of `(batch_num, batch)` pairs; a real run makes it a
  permutation of the enumerated batch list.
-/

/-- A field value of one CSV-derived record: string, number (Python float,
idealised as `ℚ`) or boolean. -/
inductive Value where
  | str (s : String)
  | num (q : ℚ)
  | bool (b : Bool)
deriving DecidableEq

/-- One row, as `pandas.Series.to_dict()` yields it: an insertion-ordered
mapping from field name to value. -/
abbrev Record := List (String × Value)

/-- First value stored under key `k` (Python `record[k]` / `k in record`). -/
def findField (r : Record) (k : String) : Option Value :=
  match r with
  | [] => none
  | (k2, v) :: rest => if k2 = k then some v else findField rest k

/-- Python `k in record`. -/
def hasField (r : Record) (k : String) : Bool :=
  (findField r k).isSome

/-- Python `record[k]` under a `k in record` guard (default never reached). -/
def getField (r : Record) (k : String) : Value :=
  (findField r k).getD (Value.str "")

/-- Python `record[k] = v`: replace in place when the key exists, append
otherwise (dict insertion-order semantics). -/
def setField (r : Record) (k : String) (v : Value) : Record :=
  if hasField r k then
    r.map (fun p => if p.1 = k then (k, v) else p)
  else
    r ++ [(k, v)]

/-- Python `str.strip()`: drop whitespace at both ends. -/
def pyStrip (s : String) : String :=
  ⟨((s.toList.dropWhile Char.isWhitespace).reverse.dropWhile Char.isWhitespace).reverse⟩

/-- Helper for `pyTitle`: the flag records whether the previous character
was alphabetic (inside a word). -/
def pyTitleAux : Bool → List Char → List Char
  | _, [] => []
  | prevAlpha, c :: t =>
    if c.isAlpha then
      (if prevAlpha then c.toLower else c.toUpper) :: pyTitleAux true t
    else
      c :: pyTitleAux false t

/-- Python `str.title()`: uppercase the first character of every
alphabetic run, lowercase the rest. -/
def pyTitle (s : String) : String :=
  ⟨pyTitleAux false s.toList⟩

/-- Value of a digit run read as a natural number. -/
def digitsToNat (l : List Char) : Nat :=
  l.foldl (fun a c => a * 10 + (c.toNat - 48)) 0

/-- Decimal subset of Python `float(str)`: optional sign, then digits
with an optional fractional part; at least one digit overall.
(Exponents, `inf`/`nan` and underscores are outside the claims.) The
parsed value `±(I.F)` is assembled as the exact rational
`(sign * (I * 10^|F| + F)) / 10^|F|` via `mkRat`. -/
def parseDecimal (s : String) : Option ℚ :=
  let cs := s.toList
  let signRest : Int × List Char :=
    match cs with
    | '-' :: t => (-1, t)
    | '+' :: t => (1, t)
    | _ => (1, cs)
  let intPart := signRest.2.takeWhile Char.isDigit
  let afterInt := signRest.2.dropWhile Char.isDigit
  match afterInt with
  | [] =>
    if intPart.isEmpty then none
    else some (mkRat (signRest.1 * (digitsToNat intPart : Int)) 1)
  | '.' :: frac =>
    let fracDigits := frac.takeWhile Char.isDigit
    let afterFrac := frac.dropWhile Char.isDigit
    if afterFrac.isEmpty && !(intPart.isEmpty && fracDigits.isEmpty) then
      some (mkRat
        (signRest.1 *
          ((digitsToNat intPart * 10 ^ fracDigits.length + digitsToNat fracDigits : Nat) : Int))
        (10 ^ fracDigits.length))
    else none
  | _ => none

/-- Python `float(x)` on the value kinds a record can hold: strings are
parsed (surrounding whitespace allowed), numbers pass through, booleans
coerce to 0/1; `none` models the `ValueError`/`TypeError` raise. -/
def pyFloat : Value → Option ℚ
  | Value.str s => parseDecimal (pyStrip s)
  | Value.num q => some q
  | Value.bool b => some (if b then 1 else 0)

/-- Python `str(x)` as applied to a record field. Only the string case is
exercised by the spec's claims; numeric/boolean cases use Lean's printer
in place of Python's repr. -/
def pyStr : Value → String
  | Value.str s => s
  | Value.num q => toString q
  | Value.bool b => if b then "True" else "False"

/-- Result of data processing operation (`ProcessingResult` dataclass). -/
structure ProcessingResult where
  success : Bool
  records_processed : Nat
  records_failed : Nat
  errors : List String
deriving DecidableEq

/-- The validated configuration state of `DataProcessor.__init__`
(`db_url`, `batch_size`, `max_workers`); the engine handle is not
modelled. -/
structure DataProcessor where
  db_url : String
  batch_size : Int
  max_workers : Int
deriving DecidableEq

/-- `DataProcessor.__init__`: rejects an empty `db_url`, a non-positive
`batch_size` and a non-positive `max_workers`, in that order, before any
further construction (the SQLAlchemy engine is created only after all
three checks). -/
def DataProcessor_init (db_url : String) (batch_size : Int) (max_workers : Int) :
    Except String DataProcessor :=
  if db_url = "" then Except.error "db_url cannot be empty"
  else if batch_size ≤ 0 then Except.error "batch_size must be positive"
  else if max_workers ≤ 0 then Except.error "max_workers must be positive"
  else Except.ok ⟨db_url, batch_size, max_workers⟩

/-- Default of the `batch_size` argument of `DataProcessor.__init__`. -/
def default_batch_size : Int := 1000

/-- Default of the `max_workers` argument of `DataProcessor.__init__`. -/
def default_max_workers : Int := 4

/-- `DataProcessor.__init__` called with only `db_url`, the other
arguments left at their defaults. -/
def DataProcessor_init_defaults (db_url : String) : Except String DataProcessor :=
  DataProcessor_init db_url default_batch_size default_max_workers

/-- `DataProcessor.validate_record`: all of `id`, `name`, `value` must be
present and `float(record['value'])` must not raise. -/
def required_fields : List String := ["id", "name", "value"]

/-- `DataProcessor.validate_record`. -/
def validate_record (record : Record) : Bool :=
  if ! (required_fields.all fun field => hasField record field) then
    false
  else
    match findField record "value" with
    | some v => (pyFloat v).isSome
    | none => false

/-- `DataProcessor.process_record`: copy, normalize `name` via
`str(...).strip().title()` when present, coerce `value` via `float(...)`
when present (the `Except.error` case models the `ValueError` raise),
then add `processed = True`. -/
def process_record (record : Record) : Except String Record :=
  let withName :=
    if hasField record "name" then
      setField record "name" (Value.str (pyTitle (pyStrip (pyStr (getField record "name")))))
    else record
  if hasField withName "value" then
    match pyFloat (getField withName "value") with
    | some q =>
      Except.ok (setField (setField withName "value" (Value.num q)) "processed" (Value.bool true))
    | none => Except.error "could not convert string to float"
  else
    Except.ok (setField withName "processed" (Value.bool true))

/-- `DataProcessor.store_batch`: empty batches are not sent; any
exception raised by the database round trip (injected through `dbExn`)
is wrapped into a `DatabaseError` with the `Failed to store batch`
prefix. -/
def store_batch (dbExn : Option String) (batch : List Record) : Except String Nat :=
  if batch.isEmpty then Except.ok 0
  else
    match dbExn with
    | some e => Except.error ("Failed to store batch: " ++ e)
    | none => Except.ok batch.length

/-- A batch handed to `process_batch`: the rows of one CSV chunk, each
paired with its pandas index (global row number). -/
abbrev Batch := List (Nat × Record)

/-- Accumise state of the per-record loop in `process_batch`. -/
structure BatchLoopState where
  records_processed : Nat
  records_failed : Nat
  errors : List String
  valid_records : List Record
deriving DecidableEq

/-- One iteration of the per-record `for`/`try` loop of `process_batch`.
`recExn idx = some e` injects an exception raised anywhere inside the
`try` block for the row with index `idx`; the `except` arm counts one
failed record and appends one message. -/
def recordStep (recExn : Nat → Option String) (st : BatchLoopState) (row : Nat × Record) :
    BatchLoopState :=
  match recExn row.1 with
  | some e =>
    { st with
      records_failed := st.records_failed + 1,
      errors := st.errors ++ ["Error processing record " ++ toString row.1 ++ ": " ++ e] }
  | none =>
    if ! validate_record row.2 then
      { st with
        records_failed := st.records_failed + 1,
        errors := st.errors ++ ["Validation failed for record " ++ toString row.1] }
    else
      match process_record row.2 with
      | Except.ok pr =>
        { st with
          valid_records := st.valid_records ++ [pr],
          records_processed := st.records_processed + 1 }
      | Except.error e =>
        { st with
          records_failed := st.records_failed + 1,
          errors := st.errors ++ ["Error processing record " ++ toString row.1 ++ ": " ++ e] }

/-- The whole per-record loop of `process_batch`. -/
def batchLoop (recExn : Nat → Option String) (df : Batch) : BatchLoopState :=
  df.foldl (recordStep recExn) ⟨0, 0, [], []⟩

/-- `DataProcessor.process_batch`: run the per-record loop, then store
the valid records when there are any; a `DatabaseError` from the store
reclassifies the whole valid-records count from processed to failed and
appends one storage message. Always returns a `ProcessingResult`. -/
def process_batch (recExn : Nat → Option String) (storeExn : Option String) (df : Batch) :
    ProcessingResult :=
  let st := batchLoop recExn df
  let st2 :=
    if st.valid_records.isEmpty then st
    else
      match store_batch storeExn st.valid_records with
      | Except.ok _ => st
      | Except.error e =>
        { st with
          errors := st.errors ++ ["Database storage failed: " ++ e],
          records_failed := st.records_failed + st.valid_records.length,
          records_processed := st.records_processed - st.valid_records.length }
  { success := st2.records_failed == 0,
    records_processed := st2.records_processed,
    records_failed := st2.records_failed,
    errors := st2.errors }

/-- Input file as seen by `read_csv_batches`: missing path, unparsable
content, or parsed rows. -/
inductive CsvFile where
  | missing
  | malformed (msg : String)
  | rows (rs : List Record)

/-- Fuel-indexed chunking; fuel `l.length` suffices whenever `bs > 0`. -/
def chunkRowsAux {α : Type} (bs : Nat) : Nat → List α → List (List α)
  | _, [] => []
  | 0, _ :: _ => []
  | fuel + 1, x :: xs => ((x :: xs).take bs) :: chunkRowsAux bs fuel ((x :: xs).drop bs)

/-- Split a row list into consecutive chunks of size `bs` (the
`pd.read_csv(..., chunksize=batch_size)` chunking). -/
def chunkRows {α : Type} (bs : Nat) (l : List α) : List (List α) :=
  chunkRowsAux bs l.length l

/-- `DataProcessor.read_csv_batches`: `FileProcessingError` when the path
does not exist, `FileProcessingError` wrapping the parse error when
pandas cannot parse the file, otherwise the chunked rows with their
global pandas indices. -/
def read_csv_batches (batch_size : Nat) (file : CsvFile) : Except String (List Batch) :=
  match file with
  | CsvFile.missing => Except.error "File not found"
  | CsvFile.malformed m => Except.error ("Failed to read CSV: " ++ m)
  | CsvFile.rows rs => Except.ok (chunkRows batch_size rs.enum)

/-- Run-level accumulator of both `process_file_sequential` and
`process_file_parallel`. -/
structure RunAcc where
  total_processed : Nat
  total_failed : Nat
  all_errors : List String
deriving DecidableEq

/-- The aggregation loop of `process_file_sequential`: batches in reader
order; `storeExn i` is the database outcome for the call on batch `i`. -/
def seqFold (recExn : Nat → Option String) (storeExn : Nat → Option String) :
    List (Nat × Batch) → RunAcc → RunAcc
  | [], acc => acc
  | (i, b) :: rest, acc =>
    seqFold recExn storeExn rest
      { total_processed :=
          acc.total_processed + (process_batch recExn (storeExn i) b).records_processed,
        total_failed :=
          acc.total_failed + (process_batch recExn (storeExn i) b).records_failed,
        all_errors := acc.all_errors ++ (process_batch recExn (storeExn i) b).errors }

/-- `DataProcessor.process_file_sequential` on the already-read batch
list. -/
def process_file_sequential (recExn : Nat → Option String) (storeExn : Nat → Option String)
    (batches : List Batch) : ProcessingResult :=
  let acc := seqFold recExn storeExn batches.enum ⟨0, 0, []⟩
  { success := acc.total_failed == 0,
    records_processed := acc.total_processed,
    records_failed := acc.total_failed,
    errors := acc.all_errors }

/-- The `as_completed` aggregation loop of `process_file_parallel`,
walking the futures in completion order. `workerExn i = some e` injects
an exception surfacing from `future.result()` for batch number `i`; the
`except` arm appends one synthetic message and touches no counts. -/
def parFold (recExn : Nat → Option String) (storeExn : Nat → Option String)
    (workerExn : Nat → Option String) :
    List (Nat × Batch) → RunAcc → RunAcc
  | [], acc => acc
  | (i, b) :: rest, acc =>
    match workerExn i with
    | none =>
      parFold recExn storeExn workerExn rest
        { total_processed :=
            acc.total_processed + (process_batch recExn (storeExn i) b).records_processed,
          total_failed :=
            acc.total_failed + (process_batch recExn (storeExn i) b).records_failed,
          all_errors := acc.all_errors ++ (process_batch recExn (storeExn i) b).errors }
    | some e =>
      parFold recExn storeExn workerExn rest
        { acc with
          all_errors := acc.all_errors ++ ["Batch " ++ toString i ++ " error: " ++ e] }

/-- `DataProcessor.process_file_parallel` on the already-read batches:
`completed` is the `(batch_num, batch)` sequence in the order
`as_completed` yields the futures (a permutation of the enumerated
batch list in a real run). -/
def process_file_parallel (recExn : Nat → Option String) (storeExn : Nat → Option String)
    (workerExn : Nat → Option String) (completed : List (Nat × Batch)) : ProcessingResult :=
  let acc := parFold recExn storeExn workerExn completed ⟨0, 0, []⟩
  { success := acc.total_failed == 0,
    records_processed := acc.total_processed,
    records_failed := acc.total_failed,
    errors := acc.all_errors }

/-- Total number of input records in a batch list. -/
def totalRecords (batches : List Batch) : Nat :=
  (batches.map List.length).sum

/-- Record count of the batches whose dispatched execution does not
raise; with `workerExn ≡ none` this is `totalRecords`. -/
def effectiveTotal (workerExn : Nat → Option String) (completed : List (Nat × Batch)) : Nat :=
  (completed.map (fun p =>
    match workerExn p.1 with
    | none => p.2.length
    | some _ => 0)).sum

/-- `main()`: argv check, input-file existence check, `DATABASE_URL`
check (`if not db_url` treats both unset and empty as missing), then the
`try` block whose outcome (`DataProcessor` construction plus
`process_file_parallel`) is abstracted by `runOutcome`; the exit code is
`0` iff the run's `success` flag is true. -/
def main_fn (argv : List String) (input_file_exists : Bool) (database_url : Option String)
    (runOutcome : Except String ProcessingResult) : Nat :=
  if argv.length < 2 then 1
  else if ! input_file_exists then 1
  else
    match database_url with
    | none => 1
    | some url =>
      if url = "" then 1
      else
        match runOutcome with
        | Except.error _ => 1
        | Except.ok result => if result.success then 0 else 1

instance {ε α : Type} [DecidableEq ε] [DecidableEq α] : DecidableEq (Except ε α) := fun x y =>
  match x, y with
  | Except.ok a, Except.ok b =>
    if h : a = b then Decidable.isTrue (by rw [h])
    else Decidable.isFalse (by intro hh; cases hh; exact h rfl)
  | Except.ok _, Except.error _ => Decidable.isFalse (by intro hh; cases hh)
  | Except.error _, Except.ok _ => Decidable.isFalse (by intro hh; cases hh)
  | Except.error e, Except.error f =>
    if h : e = f then Decidable.isTrue (by rw [h])
    else Decidable.isFalse (by intro hh; cases hh; exact h rfl)

/-- Concrete fixtures used by the witness theorems. -/
def exampleRecord : Record :=
  [("name", Value.str " bob "), ("value", Value.str "3.14"), ("id", Value.num 1)]

/-- A record failing validation (non-numeric `value`). -/
def badRecord : Record :=
  [("id", Value.num 2), ("name", Value.str "y"), ("value", Value.str "abc")]

/-- A second valid record. -/
def goodRecord2 : Record :=
  [("id", Value.num 3), ("name", Value.str "z"), ("value", Value.num 7)]

/-- Two concrete batches. -/
def wBatch0 : Batch := [(0, exampleRecord)]

/-- Second concrete batch. -/
def wBatch1 : Batch := [(1, badRecord)]

/-- Concrete batch list for run-level witnesses. -/
def wBatches : List Batch := [wBatch0, wBatch1]

/-- Completion order reversing submission order. -/
def wCompleted : List (Nat × Batch) := [(1, wBatch1), (0, wBatch0)]

/-- A two-row batch whose second row will be hit by an injected
per-record exception in the C10 witness. -/
def wdf : Batch := [(0, exampleRecord), (1, badRecord)]

theorem findField_map_self (r : Record) (k : String) (v : Value) :
    findField (r.map fun p => if p.1 = k then (k, v) else p) k
      = (findField r k).map (fun _ => v) := by
  induction r with
  | nil => rfl
  | cons p t ih =>
    obtain ⟨k2, w⟩ := p
    rw [List.map_cons]
    by_cases h : k2 = k
    · subst h
      rw [if_pos (show (k2, w).1 = k2 from rfl)]
      have h1 : findField ((k2, v) :: (t.map fun p => if p.1 = k2 then (k2, v) else p)) k2
          = some v := by
        simp [findField]
      have h2 : findField ((k2, w) :: t) k2 = some w := by
        simp [findField]
      rw [h1, h2]
      rfl
    · rw [if_neg (show ¬(k2, w).1 = k from h)]
      have h1 : findField ((k2, w) :: (t.map fun p => if p.1 = k then (k, v) else p)) k
          = findField (t.map fun p => if p.1 = k then (k, v) else p) k := by
        simp [findField, h]
      have h2 : findField ((k2, w) :: t) k = findField t k := by
        simp [findField, h]
      rw [h1, h2, ih]

theorem findField_map_ne (r : Record) (k k2 : String) (v : Value) (h : k2 ≠ k) :
    findField (r.map fun p => if p.1 = k then (k, v) else p) k2 = findField r k2 := by
  induction r with
  | nil => rfl
  | cons p t ih =>
    obtain ⟨k3, w⟩ := p
    rw [List.map_cons]
    by_cases h3 : k3 = k
    · subst h3
      have hne : k3 ≠ k2 := fun hh => h (hh ▸ rfl)
      rw [if_pos (show (k3, w).1 = k3 from rfl)]
      have h1 : findField ((k3, v) :: (t.map fun p => if p.1 = k3 then (k3, v) else p)) k2
          = findField (t.map fun p => if p.1 = k3 then (k3, v) else p) k2 := by
        simp [findField, hne]
      have h2 : findField ((k3, w) :: t) k2 = findField t k2 := by
        simp [findField, hne]
      rw [h1, h2, ih]
    · rw [if_neg (show ¬(k3, w).1 = k from h3)]
      by_cases he : k3 = k2
      · subst he
        have h1 : findField ((k3, w) :: (t.map fun p => if p.1 = k then (k, v) else p)) k3
            = some w := by
          simp [findField]
        have h2 : findField ((k3, w) :: t) k3 = some w := by
          simp [findField]
        rw [h1, h2]
      · have h1 : findField ((k3, w) :: (t.map fun p => if p.1 = k then (k, v) else p)) k2
            = findField (t.map fun p => if p.1 = k then (k, v) else p) k2 := by
          simp [findField, he]
        have h2 : findField ((k3, w) :: t) k2 = findField t k2 := by
          simp [findField, he]
        rw [h1, h2, ih]

theorem findField_append (r s : Record) (k : String) :
    findField (r ++ s) k
      = match findField r k with
        | some v => some v
        | none => findField s k := by
  induction r with
  | nil => simp [findField]
  | cons p t ih =>
    obtain ⟨k2, w⟩ := p
    by_cases h : k2 = k <;> simp [findField, h, ih]

theorem findField_setField_self (r : Record) (k : String) (v : Value) :
    findField (setField r k v) k = some v := by
  unfold setField
  by_cases h : hasField r k = true
  · rw [if_pos h, findField_map_self]
    unfold hasField at h
    cases hf : findField r k with
    | none => rw [hf] at h; simp at h
    | some w => simp
  · rw [if_neg h, findField_append]
    unfold hasField at h
    cases hf : findField r k with
    | none => simp [findField]
    | some w => rw [hf] at h; simp at h

theorem findField_setField_ne (r : Record) (k k2 : String) (v : Value) (h : k2 ≠ k) :
    findField (setField r k v) k2 = findField r k2 := by
  unfold setField
  by_cases hk : hasField r k = true
  · rw [if_pos hk, findField_map_ne r k k2 v h]
  · rw [if_neg hk, findField_append]
    cases hf : findField r k2 with
    | none => simp [findField, Ne.symm h]
    | some w => simp

theorem recordStep_counts (recExn : Nat → Option String) (st : BatchLoopState)
    (row : Nat × Record) :
    ((recordStep recExn st row).records_processed + (recordStep recExn st row).records_failed
      = st.records_processed + st.records_failed + 1)
    ∧ ((recordStep recExn st row).valid_records.length + st.records_processed
      = st.valid_records.length + (recordStep recExn st row).records_processed) := by
  unfold recordStep
  cases h : recExn row.1 with
  | some e => simp <;> omega
  | none =>
    by_cases hv : validate_record row.2
    · cases hp : process_record row.2 with
      | ok pr => simp [hv, hp] <;> omega
      | error e2 => simp [hv, hp] <;> omega
    · simp [hv] <;> omega

theorem foldl_recordStep_counts (recExn : Nat → Option String) (df : Batch) :
    ∀ st : BatchLoopState,
      ((df.foldl (recordStep recExn) st).records_processed
          + (df.foldl (recordStep recExn) st).records_failed
        = st.records_processed + st.records_failed + df.length)
      ∧ ((df.foldl (recordStep recExn) st).valid_records.length + st.records_processed
        = st.valid_records.length + (df.foldl (recordStep recExn) st).records_processed) := by
  induction df with
  | nil => intro st; simp
  | cons row rest ih =>
    intro st
    rw [List.foldl_cons]
    obtain ⟨ihc, ihv⟩ := ih (recordStep recExn st row)
    obtain ⟨sc, sv⟩ := recordStep_counts recExn st row
    constructor
    · rw [ihc]
      simp [List.length_cons]
      omega
    · omega

theorem batchLoop_counts (recExn : Nat → Option String) (df : Batch) :
    ((batchLoop recExn df).records_processed + (batchLoop recExn df).records_failed = df.length)
    ∧ ((batchLoop recExn df).valid_records.length = (batchLoop recExn df).records_processed) := by
  obtain ⟨hc, hv⟩ := foldl_recordStep_counts recExn df ⟨0, 0, [], []⟩
  unfold batchLoop
  constructor
  · simpa using hc
  · simpa using hv

theorem process_batch_sum (recExn : Nat → Option String) (storeExn : Option String) (df : Batch) :
    (process_batch recExn storeExn df).records_processed
      + (process_batch recExn storeExn df).records_failed = df.length := by
  obtain ⟨hc, hv⟩ := batchLoop_counts recExn df
  unfold process_batch
  by_cases he : (batchLoop recExn df).valid_records.isEmpty
  · simp [he, hc]
  · simp only [he, Bool.false_eq_true, if_neg, ite_false]
    cases hs : store_batch storeExn (batchLoop recExn df).valid_records with
    | ok n => simpa using hc
    | error e =>
      simp only []
      omega

theorem recordStep_errors_mono (recExn : Nat → Option String) (st : BatchLoopState)
    (row : Nat × Record) :
    ∃ t, (recordStep recExn st row).errors = st.errors ++ t := by
  unfold recordStep
  cases h : recExn row.1 with
  | some e => exact ⟨_, rfl⟩
  | none =>
    by_cases hv : validate_record row.2
    · cases hp : process_record row.2 with
      | ok pr => exact ⟨[], by simp [hv, hp]⟩
      | error e2 =>
        exact ⟨["Error processing record " ++ toString row.1 ++ ": " ++ e2], by simp [hv, hp]⟩
    · exact ⟨["Validation failed for record " ++ toString row.1], by simp [hv]⟩

theorem foldl_recordStep_errors_mono (recExn : Nat → Option String) (df : Batch) :
    ∀ st : BatchLoopState, ∃ t, (df.foldl (recordStep recExn) st).errors = st.errors ++ t := by
  induction df with
  | nil => intro st; exact ⟨[], by simp⟩
  | cons row rest ih =>
    intro st
    rw [List.foldl_cons]
    obtain ⟨t1, ht1⟩ := recordStep_errors_mono recExn st row
    obtain ⟨t2, ht2⟩ := ih (recordStep recExn st row)
    exact ⟨t1 ++ t2, by rw [ht2, ht1, List.append_assoc]⟩

theorem foldl_recordStep_errors_exn (recExn : Nat → Option String) (df : Batch) :
    ∀ (st : BatchLoopState) (i : Nat) (r : Record) (e : String),
      (i, r) ∈ df → recExn i = some e →
      ("Error processing record " ++ toString i ++ ": " ++ e)
        ∈ (df.foldl (recordStep recExn) st).errors := by
  induction df with
  | nil => intro st i r e hm; exact absurd hm (List.not_mem_nil _)
  | cons row rest ih =>
    intro st i r e hm he
    rw [List.foldl_cons]
    rcases List.mem_cons.mp hm with hhd | htl
    · have hrow : row.1 = i := by rw [← hhd]
      have hstep : (recordStep recExn st row).errors
          = st.errors ++ ["Error processing record " ++ toString i ++ ": " ++ e] := by
        unfold recordStep
        rw [hrow, he]
      obtain ⟨t, ht⟩ := foldl_recordStep_errors_mono recExn rest (recordStep recExn st row)
      rw [ht, hstep]
      simp
    · exact ih (recordStep recExn st row) i r e htl he

theorem process_batch_errors_shape (recExn : Nat → Option String) (storeExn : Option String)
    (df : Batch) :
    ∃ t, (process_batch recExn storeExn df).errors = (batchLoop recExn df).errors ++ t := by
  unfold process_batch
  by_cases he : (batchLoop recExn df).valid_records.isEmpty
  · exact ⟨[], by simp [he]⟩
  · simp only [he, Bool.false_eq_true, ite_false]
    cases hs : store_batch storeExn (batchLoop recExn df).valid_records with
    | ok n => exact ⟨[], by simp⟩
    | error e => exact ⟨_, rfl⟩

theorem parFold_counts (recExn storeExn workerExn : Nat → Option String)
    (l : List (Nat × Batch)) :
    ∀ acc : RunAcc,
      (parFold recExn storeExn workerExn l acc).total_processed
          + (parFold recExn storeExn workerExn l acc).total_failed
        = acc.total_processed + acc.total_failed + effectiveTotal workerExn l := by
  induction l with
  | nil => intro acc; simp [parFold, effectiveTotal]
  | cons p rest ih =>
    intro acc
    obtain ⟨i, b⟩ := p
    cases hw : workerExn i with
    | none =>
      have hb := process_batch_sum recExn (storeExn i) b
      have heff : effectiveTotal workerExn ((i, b) :: rest)
          = b.length + effectiveTotal workerExn rest := by
        simp [effectiveTotal, hw]
      rw [parFold, hw, ih, heff]
      simp
      omega
    | some e =>
      have heff : effectiveTotal workerExn ((i, b) :: rest)
          = effectiveTotal workerExn rest := by
        simp [effectiveTotal, hw]
      rw [parFold, hw, ih, heff]

theorem parFold_errors_mono (recExn storeExn workerExn : Nat → Option String)
    (l : List (Nat × Batch)) :
    ∀ acc : RunAcc, ∃ t,
      (parFold recExn storeExn workerExn l acc).all_errors = acc.all_errors ++ t := by
  induction l with
  | nil => intro acc; exact ⟨[], by simp [parFold]⟩
  | cons p rest ih =>
    intro acc
    obtain ⟨i, b⟩ := p
    cases hw : workerExn i with
    | none =>
      obtain ⟨t, ht⟩ := ih
        { total_processed := acc.total_processed
            + (process_batch recExn (storeExn i) b).records_processed,
          total_failed := acc.total_failed
            + (process_batch recExn (storeExn i) b).records_failed,
          all_errors := acc.all_errors ++ (process_batch recExn (storeExn i) b).errors }
      rw [parFold, hw]
      exact ⟨(process_batch recExn (storeExn i) b).errors ++ t,
        by rw [ht]; simp [List.append_assoc]⟩
    | some e =>
      obtain ⟨t, ht⟩ := ih
        { acc with all_errors := acc.all_errors ++ ["Batch " ++ toString i ++ " error: " ++ e] }
      rw [parFold, hw]
      exact ⟨["Batch " ++ toString i ++ " error: " ++ e] ++ t,
        by rw [ht]; simp [List.append_assoc]⟩

theorem parFold_errors_exn (recExn storeExn workerExn : Nat → Option String)
    (l : List (Nat × Batch)) :
    ∀ (acc : RunAcc) (i : Nat) (b : Batch) (e : String),
      (i, b) ∈ l → workerExn i = some e →
      ("Batch " ++ toString i ++ " error: " ++ e)
        ∈ (parFold recExn storeExn workerExn l acc).all_errors := by
  induction l with
  | nil => intro acc i b e hm; exact absurd hm (List.not_mem_nil _)
  | cons p rest ih =>
    intro acc i b e hm he
    rcases List.mem_cons.mp hm with hhd | htl
    · have hp : p = (i, b) := hhd.symm
      subst hp
      rw [parFold, he]
      obtain ⟨t, ht⟩ := parFold_errors_mono recExn storeExn workerExn rest
        { acc with all_errors := acc.all_errors ++ ["Batch " ++ toString i ++ " error: " ++ e] }
      rw [ht]
      simp
    · obtain ⟨j, c⟩ := p
      cases hw : workerExn j with
      | none => rw [parFold, hw]; exact ih _ i b e htl he
      | some e2 => rw [parFold, hw]; exact ih _ i b e htl he

theorem parFold_none_eq_seqFold (recExn storeExn : Nat → Option String)
    (l : List (Nat × Batch)) :
    ∀ acc : RunAcc,
      parFold recExn storeExn (fun _ => none) l acc = seqFold recExn storeExn l acc := by
  induction l with
  | nil => intro acc; rfl
  | cons p rest ih =>
    intro acc
    obtain ⟨i, b⟩ := p
    rw [parFold, seqFold]
    exact ih _

theorem effectiveTotal_none (l : List (Nat × Batch)) :
    effectiveTotal (fun _ => none) l = (l.map (fun p => p.2.length)).sum := rfl

theorem enum_sum_lengths (batches : List Batch) :
    ((batches.enum.map (fun p => p.2.length)).sum) = totalRecords batches := by
  unfold totalRecords
  have h : batches.enum.map (fun p => p.2.length)
      = (batches.enum.map Prod.snd).map List.length := by
    rw [List.map_map]
    rfl
  rw [h, List.enum_map_snd]

theorem chunkRowsAux_nil {α : Type} (bs fuel : Nat) :
    chunkRowsAux bs fuel ([] : List α) = [] := by
  cases fuel <;> rfl

theorem chunk_single {α : Type} (bs : Nat) (l : List α) (hbs : 0 < bs) (hl : l.length = bs) :
    chunkRows bs l = [l] := by
  subst hl
  unfold chunkRows
  cases l with
  | nil => simp at hbs
  | cons x xs =>
    rw [List.length_cons, chunkRowsAux]
    rw [List.take_of_length_le (by simp), List.drop_eq_nil_of_le (by simp), chunkRowsAux_nil]

theorem chunk_two {α : Type} (bs : Nat) (l : List α) (hbs : 0 < bs) (hl : l.length = bs + 1) :
    chunkRows bs l = [l.take bs, l.drop bs]
    ∧ (l.take bs).length = bs ∧ (l.drop bs).length = 1 := by
  have htake : (l.take bs).length = bs := by
    rw [List.length_take, hl]
    omega
  have hdrop : (l.drop bs).length = 1 := by
    rw [List.length_drop, hl]
    omega
  refine ⟨?_, htake, hdrop⟩
  unfold chunkRows
  rw [hl]
  cases l with
  | nil => simp at hl
  | cons x xs =>
    rw [chunkRowsAux]
    obtain ⟨a, ha⟩ := List.length_eq_one.mp hdrop
    rw [ha]
    obtain ⟨k, hk⟩ : ∃ k, bs = k + 1 := ⟨bs - 1, by omega⟩
    rw [hk, chunkRowsAux]
    have h1 : [a].take (k + 1) = [a] := by simp
    have h2 : [a].drop (k + 1) = [] := by simp
    rw [h1, h2, chunkRowsAux_nil]

theorem validate_record_spec (r : Record) :
    validate_record r = true ↔
      ((hasField r "id" = true ∧ hasField r "name" = true ∧ hasField r "value" = true)
        ∧ ∃ v, findField r "value" = some v ∧ (pyFloat v).isSome = true) := by
  unfold validate_record required_fields
  cases hall : (List.all ["id", "name", "value"] fun field => hasField r field) with
  | false =>
    have hf : ¬(hasField r "id" = true ∧ hasField r "name" = true ∧ hasField r "value" = true) := by
      intro hc
      obtain ⟨h1, h2, h3⟩ := hc
      simp [List.all_cons, h1, h2, h3] at hall
    simp [hf]
  | true =>
    have hfields : hasField r "id" = true ∧ hasField r "name" = true ∧ hasField r "value" = true := by
      simpa [List.all_cons] using hall
    cases hv : findField r "value" with
    | none => simp [hv, hfields]
    | some v => simp [hv, hfields]

/-- C4: `validate_record(record)` returns true if and only if the record
contains every field of `id`, `name`, `value` and the `value` field
parses as a number; it is a pure total Boolean function (the embedding
returns `false` rather than raising on malformed input), with
`value = "abc"` rejected and `{id:1, name:"x", value:"3.14"}` accepted. -/
theorem validate_record_iff (r : Record) :
    (validate_record r = true ↔
      ((hasField r "id" = true ∧ hasField r "name" = true ∧ hasField r "value" = true)
        ∧ ∃ v, findField r "value" = some v ∧ (pyFloat v).isSome = true))
    ∧ validate_record [("id", Value.num 1), ("name", Value.str "x"), ("value", Value.str "abc")]
        = false
    ∧ validate_record [("id", Value.num 1), ("name", Value.str "x"), ("value", Value.str "3.14")]
        = true :=
  ⟨validate_record_spec r, by decide, by decide⟩

/-- Witness for C4 at the concrete accepted record. -/
theorem validate_record_iff_witness :
    (validate_record [("id", Value.num 1), ("name", Value.str "x"), ("value", Value.str "3.14")]
        = true ↔
      ((hasField [("id", Value.num 1), ("name", Value.str "x"), ("value", Value.str "3.14")]
          "id" = true
        ∧ hasField [("id", Value.num 1), ("name", Value.str "x"), ("value", Value.str "3.14")]
          "name" = true
        ∧ hasField [("id", Value.num 1), ("name", Value.str "x"), ("value", Value.str "3.14")]
          "value" = true)
        ∧ ∃ v, findField [("id", Value.num 1), ("name", Value.str "x"),
            ("value", Value.str "3.14")] "value" = some v ∧ (pyFloat v).isSome = true))
    ∧ validate_record [("id", Value.num 1), ("name", Value.str "x"), ("value", Value.str "abc")]
        = false
    ∧ validate_record [("id", Value.num 1), ("name", Value.str "x"), ("value", Value.str "3.14")]
        = true :=
  validate_record_iff [("id", Value.num 1), ("name", Value.str "x"), ("value", Value.str "3.14")]

/-- C5: for every record that passes validation, `process_record` returns
a new record whose `name` field is the stringified original trimmed and
title-cased, whose `value` field is the original coerced to a number,
with a boolean `processed = true` field added and every other field
unchanged; in particular, on `{name:" bob ", value:"3.14", id:1}` it
yields `{name:"Bob", value:3.14, id:1, processed:true}`. -/
theorem process_record_transforms (r : Record) (hv : validate_record r = true) :
    (∃ w v q out,
      findField r "name" = some w
      ∧ findField r "value" = some v
      ∧ pyFloat v = some q
      ∧ process_record r = Except.ok out
      ∧ findField out "name" = some (Value.str (pyTitle (pyStrip (pyStr w))))
      ∧ findField out "value" = some (Value.num q)
      ∧ findField out "processed" = some (Value.bool true)
      ∧ (∀ k, k ≠ "name" → k ≠ "value" → k ≠ "processed" → findField out k = findField r k))
    ∧ process_record exampleRecord
        = Except.ok [("name", Value.str "Bob"), ("value", Value.num 3.14),
            ("id", Value.num 1), ("processed", Value.bool true)] := by
  constructor
  · obtain ⟨⟨hid, hname, hvalue⟩, v, hfv, hfl⟩ := (validate_record_spec r).mp hv
    obtain ⟨w, hw⟩ : ∃ w, findField r "name" = some w := by
      unfold hasField at hname
      cases hfn : findField r "name" with
      | none => rw [hfn] at hname; simp at hname
      | some w => exact ⟨w, rfl⟩
    obtain ⟨q, hq⟩ : ∃ q, pyFloat v = some q := Option.isSome_iff_exists.mp hfl
    have hgn : getField r "name" = w := by
      unfold getField; rw [hw]; rfl
    have e2 : findField
        (setField r "name" (Value.str (pyTitle (pyStrip (pyStr (getField r "name"))))))
        "value" = some v := by
      rw [findField_setField_ne _ _ _ _ (by decide)]
      exact hfv
    have e3 : hasField
        (setField r "name" (Value.str (pyTitle (pyStrip (pyStr (getField r "name"))))))
        "value" = true := by
      unfold hasField; rw [e2]; rfl
    have e4 : getField
        (setField r "name" (Value.str (pyTitle (pyStrip (pyStr (getField r "name"))))))
        "value" = v := by
      have h0 : getField
          (setField r "name" (Value.str (pyTitle (pyStrip (pyStr (getField r "name"))))))
          "value"
          = (findField
              (setField r "name" (Value.str (pyTitle (pyStrip (pyStr (getField r "name"))))))
              "value").getD (Value.str "") := rfl
      rw [h0, e2]
      rfl
    have hpr : process_record r = Except.ok
        (setField
          (setField
            (setField r "name" (Value.str (pyTitle (pyStrip (pyStr (getField r "name"))))))
            "value" (Value.num q))
          "processed" (Value.bool true)) := by
      simp only [process_record, hname, e3, e4, hq, if_true]
    refine ⟨w, v, q, _, hw, hfv, hq, hpr, ?_, ?_, ?_, ?_⟩
    · rw [findField_setField_ne _ _ _ _ (by decide),
        findField_setField_ne _ _ _ _ (by decide),
        findField_setField_self, hgn]
    · rw [findField_setField_ne _ _ _ _ (by decide), findField_setField_self]
    · rw [findField_setField_self]
    · intro k hk1 hk2 hk3
      rw [findField_setField_ne _ _ _ _ hk3, findField_setField_ne _ _ _ _ hk2,
        findField_setField_ne _ _ _ _ hk1]
  · rw [show (3.14 : ℚ) = mkRat 314 100 by rw [Rat.mkRat_eq_div]; norm_num]
    decide

/-- Witness for C5 at the concrete record `{name:" bob ", value:"3.14", id:1}`. -/
theorem process_record_transforms_witness :
    (∃ w v q out,
      findField exampleRecord "name" = some w
      ∧ findField exampleRecord "value" = some v
      ∧ pyFloat v = some q
      ∧ process_record exampleRecord = Except.ok out
      ∧ findField out "name" = some (Value.str (pyTitle (pyStrip (pyStr w))))
      ∧ findField out "value" = some (Value.num q)
      ∧ findField out "processed" = some (Value.bool true)
      ∧ (∀ k, k ≠ "name" → k ≠ "value" → k ≠ "processed" →
          findField out k = findField exampleRecord k))
    ∧ process_record exampleRecord
        = Except.ok [("name", Value.str "Bob"), ("value", Value.num 3.14),
            ("id", Value.num 1), ("processed", Value.bool true)] :=
  process_record_transforms exampleRecord (by decide)

theorem process_batch_storage_failure_eq (recExn : Nat → Option String) (e : String)
    (df : Batch) (hne : (batchLoop recExn df).valid_records ≠ []) :
    process_batch recExn (some e) df
      = { success := (((batchLoop recExn df).records_failed
            + (batchLoop recExn df).valid_records.length) == 0),
          records_processed := (batchLoop recExn df).records_processed
            - (batchLoop recExn df).valid_records.length,
          records_failed := (batchLoop recExn df).records_failed
            + (batchLoop recExn df).valid_records.length,
          errors := (batchLoop recExn df).errors
            ++ ["Database storage failed: " ++ ("Failed to store batch: " ++ e)] } := by
  have hie : (batchLoop recExn df).valid_records.isEmpty = false := by
    cases hvr : (batchLoop recExn df).valid_records with
    | nil => exact absurd hvr hne
    | cons a t => rfl
  simp only [process_batch, store_batch, hie, Bool.false_eq_true, if_false]

/-- C3: for every batch whose storage call fails, `process_batch`
reclassifies the entire valid-records count from processed to failed
(`records_processed` drops by the valid-record count, which equals the
whole processed count, and `records_failed` rises by it), appends
exactly one storage-error message, and returns a result whose `success`
flag equals `records_failed == 0`. -/
theorem process_batch_storage_failure_reclassifies (recExn : Nat → Option String)
    (e : String) (df : Batch)
    (hne : (batchLoop recExn df).valid_records ≠ []) :
    ((process_batch recExn (some e) df).records_processed
      = (batchLoop recExn df).records_processed - (batchLoop recExn df).valid_records.length)
    ∧ ((batchLoop recExn df).records_processed = (batchLoop recExn df).valid_records.length)
    ∧ ((process_batch recExn (some e) df).records_failed
      = (batchLoop recExn df).records_failed + (batchLoop recExn df).valid_records.length)
    ∧ ((process_batch recExn (some e) df).errors
      = (batchLoop recExn df).errors ++ ["Database storage failed: " ++ ("Failed to store batch: " ++ e)])
    ∧ ((process_batch recExn (some e) df).success
      = ((process_batch recExn (some e) df).records_failed == 0)) := by
  have hres := process_batch_storage_failure_eq recExn e df hne
  obtain ⟨-, hv⟩ := batchLoop_counts recExn df
  rw [hres]
  exact ⟨rfl, hv.symm, rfl, rfl, rfl⟩

/-- Witness for C3: one valid record, one failed storage call. -/
theorem process_batch_storage_failure_reclassifies_witness :
    (batchLoop (fun _ => none) wBatch0).valid_records ≠ []
    ∧ (((process_batch (fun _ => none) (some "connection refused") wBatch0).records_processed
        = (batchLoop (fun _ => none) wBatch0).records_processed
          - (batchLoop (fun _ => none) wBatch0).valid_records.length)
      ∧ ((batchLoop (fun _ => none) wBatch0).records_processed
        = (batchLoop (fun _ => none) wBatch0).valid_records.length)
      ∧ ((process_batch (fun _ => none) (some "connection refused") wBatch0).records_failed
        = (batchLoop (fun _ => none) wBatch0).records_failed
          + (batchLoop (fun _ => none) wBatch0).valid_records.length)
      ∧ ((process_batch (fun _ => none) (some "connection refused") wBatch0).errors
        = (batchLoop (fun _ => none) wBatch0).errors
          ++ ["Database storage failed: " ++ ("Failed to store batch: " ++ "connection refused")])
      ∧ ((process_batch (fun _ => none) (some "connection refused") wBatch0).success
        = ((process_batch (fun _ => none) (some "connection refused") wBatch0).records_failed
            == 0))) :=
  ⟨by decide,
    process_batch_storage_failure_reclassifies (fun _ => none) "connection refused" wBatch0
      (by decide)⟩

/-- C10: `process_batch` is total on any batch: an exception injected
anywhere in a record's `try` block is caught in the loop, counted as one
failed record with one appended message; a storage exception is wrapped
by `store_batch` into the `Failed to store batch` `DatabaseError` and
caught by `process_batch` (surfacing as the `Database storage failed`
message); the function always returns a `ProcessingResult`, with
`records_processed + records_failed` equal to the batch size for every
fault pattern. -/
theorem process_batch_total_accounting (recExn : Nat → Option String)
    (storeExn : Option String) (df : Batch) :
    ((process_batch recExn storeExn df).records_processed
        + (process_batch recExn storeExn df).records_failed = df.length)
    ∧ (∀ i r e, (i, r) ∈ df → recExn i = some e →
        ("Error processing record " ++ toString i ++ ": " ++ e)
          ∈ (process_batch recExn storeExn df).errors)
    ∧ (∀ e, storeExn = some e → (batchLoop recExn df).valid_records ≠ [] →
        ("Database storage failed: " ++ ("Failed to store batch: " ++ e))
          ∈ (process_batch recExn storeExn df).errors) := by
  refine ⟨process_batch_sum recExn storeExn df, ?_, ?_⟩
  · intro i r e hm he
    obtain ⟨t, ht⟩ := process_batch_errors_shape recExn storeExn df
    rw [ht]
    exact List.mem_append_left _ (foldl_recordStep_errors_exn recExn df _ i r e hm he)
  · intro e hse hne
    subst hse
    rw [process_batch_storage_failure_eq recExn e df hne]
    exact List.mem_append_right _ (List.mem_cons_self _ _)

/-- Witness for C10: a per-record fault on row 1 and a failing storage
call on the batch of row 0. -/
theorem process_batch_total_accounting_witness :
    ((process_batch (fun i => if i == 1 then some "boom" else none) (some "down") wdf
        ).records_processed
      + (process_batch (fun i => if i == 1 then some "boom" else none) (some "down") wdf
        ).records_failed = wdf.length)
    ∧ ("Error processing record " ++ toString 1 ++ ": " ++ "boom")
        ∈ (process_batch (fun i => if i == 1 then some "boom" else none) (some "down") wdf).errors
    ∧ ("Database storage failed: " ++ ("Failed to store batch: " ++ "down"))
        ∈ (process_batch (fun i => if i == 1 then some "boom" else none) (some "down") wdf).errors :=
  ⟨(process_batch_total_accounting (fun i => if i == 1 then some "boom" else none)
      (some "down") wdf).1,
    (process_batch_total_accounting (fun i => if i == 1 then some "boom" else none)
      (some "down") wdf).2.1 1 badRecord "boom" (List.Mem.tail _ (List.Mem.head _)) rfl,
    (process_batch_total_accounting (fun i => if i == 1 then some "boom" else none)
      (some "down") wdf).2.2 "down" rfl (by decide)⟩

/-- C1: for every input and for both sequential and parallel modes, the
run-level result satisfies `records_processed + records_failed` equal to
the total number of input records, with every batch contributing exactly
once (the parallel completion order `completed` is any permutation of
the enumerated batch list; `workerExn` is `none` everywhere because
`process_batch` catches every exception internally and so a dispatched
batch never raises). -/
theorem run_counts_invariant (recExn storeExn : Nat → Option String) (batches : List Batch)
    (completed : List (Nat × Batch)) (hperm : completed.Perm batches.enum) :
    ((process_file_sequential recExn storeExn batches).records_processed
        + (process_file_sequential recExn storeExn batches).records_failed
      = totalRecords batches)
    ∧ ((process_file_parallel recExn storeExn (fun _ => none) completed).records_processed
        + (process_file_parallel recExn storeExn (fun _ => none) completed).records_failed
      = totalRecords batches) := by
  have hseq := parFold_counts recExn storeExn (fun _ => none) batches.enum ⟨0, 0, []⟩
  have hpar := parFold_counts recExn storeExn (fun _ => none) completed ⟨0, 0, []⟩
  have hsum : effectiveTotal (fun _ => none) completed
      = effectiveTotal (fun _ => none) batches.enum := by
    rw [effectiveTotal_none, effectiveTotal_none]
    exact (hperm.map (fun p => p.2.length)).sum_eq
  have htot : effectiveTotal (fun _ => none) batches.enum = totalRecords batches := by
    rw [effectiveTotal_none, enum_sum_lengths]
  constructor
  · have hdef : (process_file_sequential recExn storeExn batches).records_processed
        + (process_file_sequential recExn storeExn batches).records_failed
        = (seqFold recExn storeExn batches.enum ⟨0, 0, []⟩).total_processed
          + (seqFold recExn storeExn batches.enum ⟨0, 0, []⟩).total_failed := rfl
    rw [hdef, ← parFold_none_eq_seqFold, hseq, htot]
    simp
  · have hdef : (process_file_parallel recExn storeExn (fun _ => none) completed).records_processed
        + (process_file_parallel recExn storeExn (fun _ => none) completed).records_failed
        = (parFold recExn storeExn (fun _ => none) completed ⟨0, 0, []⟩).total_processed
          + (parFold recExn storeExn (fun _ => none) completed ⟨0, 0, []⟩).total_failed := rfl
    rw [hdef, hpar, hsum, htot]
    simp

/-- Witness for C1: two batches, parallel completion order reversed. -/
theorem run_counts_invariant_witness :
    ((process_file_sequential (fun _ => none) (fun _ => none) wBatches).records_processed
        + (process_file_sequential (fun _ => none) (fun _ => none) wBatches).records_failed
      = totalRecords wBatches)
    ∧ ((process_file_parallel (fun _ => none) (fun _ => none) (fun _ => none)
          wCompleted).records_processed
        + (process_file_parallel (fun _ => none) (fun _ => none) (fun _ => none)
          wCompleted).records_failed
      = totalRecords wBatches) :=
  run_counts_invariant (fun _ => none) (fun _ => none) wBatches wCompleted
    (List.Perm.swap (0, wBatch0) (1, wBatch1) [])

/-- C2 counterexample: a dispatched batch of one record raises a worker
exception; the Orchestrator appends one synthetic message and continues,
but `records_failed` stays `0` (the record is NOT counted as failed, and
the run even reports `success = true`), refuting the claim that all
records of the batch are counted as failed. -/
theorem worker_exception_counts_counterexample :
    ((process_file_parallel (fun _ => none) (fun _ => none) (fun _ => some "boom")
        [(0, [(0, exampleRecord)])]).records_failed = 0)
    ∧ (([(0, exampleRecord)] : Batch).length = 1)
    ∧ ((process_file_parallel (fun _ => none) (fun _ => none) (fun _ => some "boom")
        [(0, [(0, exampleRecord)])]).errors = ["Batch 0 error: boom"])
    ∧ ((process_file_parallel (fun _ => none) (fun _ => none) (fun _ => some "boom")
        [(0, [(0, exampleRecord)])]).success = true) := by
  refine ⟨rfl, rfl, ?_, rfl⟩
  decide

/-- C2 (amended): an exception raised while processing one dispatched
batch in parallel mode is caught per-batch by the Orchestrator, exactly
one synthetic `Batch {i} error: {e}` message is appended, and every
remaining batch is still processed (all non-faulting batches' records
are fully accounted); however the faulting batch's records are NOT
counted as failed — its records simply drop out of the counts. -/
theorem worker_exception_absorbed (recExn storeExn workerExn : Nat → Option String)
    (completed : List (Nat × Batch)) :
    ((process_file_parallel recExn storeExn workerExn completed).records_processed
        + (process_file_parallel recExn storeExn workerExn completed).records_failed
      = effectiveTotal workerExn completed)
    ∧ (∀ i b e, (i, b) ∈ completed → workerExn i = some e →
        ("Batch " ++ toString i ++ " error: " ++ e)
          ∈ (process_file_parallel recExn storeExn workerExn completed).errors) := by
  constructor
  · have hdef : (process_file_parallel recExn storeExn workerExn completed).records_processed
        + (process_file_parallel recExn storeExn workerExn completed).records_failed
        = (parFold recExn storeExn workerExn completed ⟨0, 0, []⟩).total_processed
          + (parFold recExn storeExn workerExn completed ⟨0, 0, []⟩).total_failed := rfl
    rw [hdef, parFold_counts]
    simp
  · intro i b e hm he
    have hdef : (process_file_parallel recExn storeExn workerExn completed).errors
        = (parFold recExn storeExn workerExn completed ⟨0, 0, []⟩).all_errors := rfl
    rw [hdef]
    exact parFold_errors_exn recExn storeExn workerExn completed ⟨0, 0, []⟩ i b e hm he

/-- Witness for C2 (amended): batch 0 faults, batch 1 completes. -/
theorem worker_exception_absorbed_witness :
    ((process_file_parallel (fun _ => none) (fun _ => none)
        (fun i => if i == 0 then some "boom" else none)
        [(0, wBatch0), (1, wBatch1)]).records_processed
      + (process_file_parallel (fun _ => none) (fun _ => none)
          (fun i => if i == 0 then some "boom" else none)
          [(0, wBatch0), (1, wBatch1)]).records_failed
      = effectiveTotal (fun i => if i == 0 then some "boom" else none)
          [(0, wBatch0), (1, wBatch1)])
    ∧ ("Batch " ++ toString 0 ++ " error: " ++ "boom")
        ∈ (process_file_parallel (fun _ => none) (fun _ => none)
            (fun i => if i == 0 then some "boom" else none)
            [(0, wBatch0), (1, wBatch1)]).errors :=
  ⟨(worker_exception_absorbed (fun _ => none) (fun _ => none)
      (fun i => if i == 0 then some "boom" else none) [(0, wBatch0), (1, wBatch1)]).1,
    (worker_exception_absorbed (fun _ => none) (fun _ => none)
      (fun i => if i == 0 then some "boom" else none) [(0, wBatch0), (1, wBatch1)]).2
      0 wBatch0 "boom" (List.mem_cons_self _ _) rfl⟩

/-- C6: parallel mode with a single worker (batches complete in
submission order, no worker faults) produces the same
`records_processed`, `records_failed` and `success` values as
sequential mode on the same input. -/
theorem parallel_one_worker_matches_sequential (recExn storeExn : Nat → Option String)
    (batches : List Batch) :
    ((process_file_parallel recExn storeExn (fun _ => none) batches.enum).records_processed
      = (process_file_sequential recExn storeExn batches).records_processed)
    ∧ ((process_file_parallel recExn storeExn (fun _ => none) batches.enum).records_failed
      = (process_file_sequential recExn storeExn batches).records_failed)
    ∧ ((process_file_parallel recExn storeExn (fun _ => none) batches.enum).success
      = (process_file_sequential recExn storeExn batches).success) := by
  have h : parFold recExn storeExn (fun _ => none) batches.enum ⟨0, 0, []⟩
      = seqFold recExn storeExn batches.enum ⟨0, 0, []⟩ :=
    parFold_none_eq_seqFold recExn storeExn batches.enum ⟨0, 0, []⟩
  unfold process_file_parallel process_file_sequential
  rw [h]
  exact ⟨rfl, rfl, rfl⟩

/-- Witness for C6 on the two concrete batches. -/
theorem parallel_one_worker_matches_sequential_witness :
    ((process_file_parallel (fun _ => none) (fun _ => none) (fun _ => none)
        wBatches.enum).records_processed
      = (process_file_sequential (fun _ => none) (fun _ => none) wBatches).records_processed)
    ∧ ((process_file_parallel (fun _ => none) (fun _ => none) (fun _ => none)
        wBatches.enum).records_failed
      = (process_file_sequential (fun _ => none) (fun _ => none) wBatches).records_failed)
    ∧ ((process_file_parallel (fun _ => none) (fun _ => none) (fun _ => none)
        wBatches.enum).success
      = (process_file_sequential (fun _ => none) (fun _ => none) wBatches).success) :=
  parallel_one_worker_matches_sequential (fun _ => none) (fun _ => none) wBatches

/-- C7: `main` exits with code 0 exactly when the run's `success` flag is
true, and with code 1 otherwise or on any setup-time error: missing
input-file argument, nonexistent input file, or unset (or empty)
`DATABASE_URL`; no other exit code is possible. -/
theorem main_exit_code_contract (argv : List String) (fe : Bool) (db : Option String)
    (out : Except String ProcessingResult) :
    (main_fn argv fe db out = 0 ∨ main_fn argv fe db out = 1)
    ∧ (main_fn argv fe db out = 0 ↔
        (2 ≤ argv.length ∧ fe = true
          ∧ (∃ u, db = some u ∧ u ≠ "")
          ∧ (∃ r, out = Except.ok r ∧ r.success = true))) := by
  by_cases h1 : argv.length < 2
  · have hm : main_fn argv fe db out = 1 := by
      unfold main_fn
      rw [if_pos h1]
    refine ⟨Or.inr hm, ?_⟩
    rw [hm]
    constructor
    · intro h; omega
    · rintro ⟨hlen, -⟩; omega
  · cases fe with
    | false =>
      have hm : main_fn argv false db out = 1 := by
        unfold main_fn
        rw [if_neg h1]
        rfl
      refine ⟨Or.inr hm, ?_⟩
      rw [hm]
      constructor
      · intro h; omega
      · rintro ⟨-, hfe, -⟩; exact absurd hfe (by simp)
    | true =>
      rcases db with _ | url
      · have hm : main_fn argv true none out = 1 := by
          unfold main_fn
          rw [if_neg h1]
          rfl
        refine ⟨Or.inr hm, ?_⟩
        rw [hm]
        constructor
        · intro h; omega
        · rintro ⟨-, -, ⟨u, hu, -⟩, -⟩; exact Option.noConfusion hu
      · by_cases hurl : url = ""
        · have hm : main_fn argv true (some url) out = 1 := by
            unfold main_fn
            rw [if_neg h1]
            simp [hurl]
          refine ⟨Or.inr hm, ?_⟩
          rw [hm]
          constructor
          · intro h; omega
          · rintro ⟨-, -, ⟨u, hu, hne⟩, -⟩
            have huu : url = u := Option.some.inj hu
            exact (hne (by rw [← huu, hurl])).elim
        · rcases out with e | r
          · have hm : main_fn argv true (some url) (Except.error e) = 1 := by
              unfold main_fn
              rw [if_neg h1]
              simp [hurl]
            refine ⟨Or.inr hm, ?_⟩
            rw [hm]
            constructor
            · intro h; omega
            · rintro ⟨-, -, -, ⟨r, hr, -⟩⟩; exact Except.noConfusion hr
          · by_cases hs : r.success = true
            · have hm : main_fn argv true (some url) (Except.ok r) = 0 := by
                unfold main_fn
                rw [if_neg h1]
                simp [hurl, hs]
              refine ⟨Or.inl hm, ?_⟩
              rw [hm]
              constructor
              · intro _
                exact ⟨by omega, rfl, ⟨url, rfl, hurl⟩, ⟨r, rfl, hs⟩⟩
              · intro _; rfl
            · have hm : main_fn argv true (some url) (Except.ok r) = 1 := by
                unfold main_fn
                rw [if_neg h1]
                simp [hurl, hs]
              refine ⟨Or.inr hm, ?_⟩
              rw [hm]
              constructor
              · intro h; omega
              · rintro ⟨-, -, -, ⟨r2, hr2, hs2⟩⟩
                have hrr : r = r2 := Except.ok.inj hr2
                exact (hs (by rw [hrr]; exact hs2)).elim

/-- Witness for C7: well-formed argv, existing file, set URL, successful
run. -/
theorem main_exit_code_contract_witness :
    (main_fn ["prog", "input.csv"] true (some "postgresql://localhost/db")
        (Except.ok ⟨true, 1, 0, []⟩) = 0
      ∨ main_fn ["prog", "input.csv"] true (some "postgresql://localhost/db")
        (Except.ok ⟨true, 1, 0, []⟩) = 1)
    ∧ (main_fn ["prog", "input.csv"] true (some "postgresql://localhost/db")
        (Except.ok ⟨true, 1, 0, []⟩) = 0 ↔
        (2 ≤ (["prog", "input.csv"] : List String).length ∧ true = true
          ∧ (∃ u, (some "postgresql://localhost/db" : Option String) = some u ∧ u ≠ "")
          ∧ (∃ r, (Except.ok ⟨true, 1, 0, []⟩ : Except String ProcessingResult) = Except.ok r
              ∧ r.success = true))) :=
  main_exit_code_contract ["prog", "input.csv"] true (some "postgresql://localhost/db")
    (Except.ok ⟨true, 1, 0, []⟩)

/-- C8: the `DataProcessor` constructor rejects invalid configuration at
startup, raising exactly when the connection string is empty, the batch
size is not positive, or the worker count is not positive; the defaults
are `batch_size = 1000` and `max_workers = 4` (both valid), and the
validation happens before any further construction (the embedding
returns the error before building the processor state, mirroring the
source where the engine is created only after the checks). -/
theorem init_validation_iff (u : String) (b w : Int) :
    ((∃ e, DataProcessor_init u b w = Except.error e) ↔ (u = "" ∨ b ≤ 0 ∨ w ≤ 0))
    ∧ DataProcessor_init_defaults u = DataProcessor_init u 1000 4
    ∧ default_batch_size = 1000
    ∧ default_max_workers = 4
    ∧ (0 : Int) < default_batch_size
    ∧ (0 : Int) < default_max_workers := by
  refine ⟨?_, rfl, rfl, rfl, by decide, by decide⟩
  constructor
  · rintro ⟨e, he⟩
    unfold DataProcessor_init at he
    by_cases hu : u = ""
    · exact Or.inl hu
    · rw [if_neg hu] at he
      by_cases hb : b ≤ 0
      · exact Or.inr (Or.inl hb)
      · rw [if_neg hb] at he
        by_cases hw : w ≤ 0
        · exact Or.inr (Or.inr hw)
        · rw [if_neg hw] at he
          exact Except.noConfusion he
  · intro h
    unfold DataProcessor_init
    rcases h with hu | hb | hw
    · exact ⟨_, by rw [if_pos hu]⟩
    · by_cases hu : u = ""
      · exact ⟨_, by rw [if_pos hu]⟩
      · exact ⟨_, by rw [if_neg hu, if_pos hb]⟩
    · by_cases hu : u = ""
      · exact ⟨_, by rw [if_pos hu]⟩
      · by_cases hb : b ≤ 0
        · exact ⟨_, by rw [if_neg hu, if_pos hb]⟩
        · exact ⟨_, by rw [if_neg hu, if_neg hb, if_pos hw]⟩

/-- Witness for C8 at a valid configuration. -/
theorem init_validation_iff_witness :
    ((∃ e, DataProcessor_init "postgresql://localhost/db" 1000 4 = Except.error e)
      ↔ (("postgresql://localhost/db" : String) = "" ∨ (1000 : Int) ≤ 0 ∨ (4 : Int) ≤ 0))
    ∧ DataProcessor_init_defaults "postgresql://localhost/db"
        = DataProcessor_init "postgresql://localhost/db" 1000 4
    ∧ default_batch_size = 1000
    ∧ default_max_workers = 4
    ∧ (0 : Int) < default_batch_size
    ∧ (0 : Int) < default_max_workers :=
  init_validation_iff "postgresql://localhost/db" 1000 4

/-- C9: for every `batch_size > 0`, the batch reader splits an input
with exactly `batch_size` records into exactly one batch, and an input
with `batch_size + 1` records into exactly two batches whose second
contains exactly one record; it fails when the input path does not
exist and when the file cannot be parsed. -/
theorem read_csv_batches_boundary (bs : Nat) (rs rs2 : List Record) (m : String)
    (hbs : 0 < bs) (h1 : rs.length = bs) (h2 : rs2.length = bs + 1) :
    (read_csv_batches bs (CsvFile.rows rs) = Except.ok [rs.enum])
    ∧ (∃ b1 b2, read_csv_batches bs (CsvFile.rows rs2) = Except.ok [b1, b2]
        ∧ b1.length = bs ∧ b2.length = 1)
    ∧ (∃ e1, read_csv_batches bs CsvFile.missing = Except.error e1)
    ∧ (∃ e2, read_csv_batches bs (CsvFile.malformed m) = Except.error e2) := by
  have hone := chunk_single bs rs.enum hbs (by rw [List.enum_length]; exact h1)
  obtain ⟨hc, ht, hd⟩ := chunk_two bs rs2.enum hbs (by rw [List.enum_length]; exact h2)
  refine ⟨?_, ⟨rs2.enum.take bs, rs2.enum.drop bs, ?_, ht, hd⟩, ⟨_, rfl⟩, ⟨_, rfl⟩⟩
  · simp only [read_csv_batches]
    rw [hone]
  · simp only [read_csv_batches]
    rw [hc]

/-- Witness for C9 at `batch_size = 2` with 2- and 3-record inputs. -/
theorem read_csv_batches_boundary_witness :
    (read_csv_batches 2 (CsvFile.rows [exampleRecord, badRecord])
        = Except.ok [([exampleRecord, badRecord] : List Record).enum])
    ∧ (∃ b1 b2, read_csv_batches 2 (CsvFile.rows [exampleRecord, badRecord, goodRecord2])
        = Except.ok [b1, b2] ∧ b1.length = 2 ∧ b2.length = 1)
    ∧ (∃ e1, read_csv_batches 2 CsvFile.missing = Except.error e1)
    ∧ (∃ e2, read_csv_batches 2 (CsvFile.malformed "inconsistent columns") = Except.error e2) :=
  read_csv_batches_boundary 2 [exampleRecord, badRecord] [exampleRecord, badRecord, goodRecord2]
    "inconsistent columns" (by decide) rfl rfl
